import Mathlib

/-!
Verification of the Kafka event pipeline of the k3s-kafka repository.

The two programs embedded here are:
* `src/node-services/analytics-service/src/index.js` — the Event Consumer:
  a Kafka consumer appending parsed messages to an in-memory event log
  (`events`, `messagesConsumed`) and serving `GET /events`, `GET /stats`
  and `GET /kafka-status` over it;
* `src/node-services/content-service/src/index.js` — the Event Publisher:
  `trackEvent` publishing analytics events to Kafka, called fire-and-forget
  from the HTTP handlers such as `POST /items`.

JavaScript-specific semantics (truthiness of strings, `parseInt`,
`Array.prototype.slice` with a negative or NaN argument, object spread
overriding earlier keys) are modelled explicitly so that the theorems
speak about what the source does, not about an idealisation of it.
-/

/-- Value of a JSON/JavaScript object field as it occurs in this code base:
a string, a number, `null`, or `undefined` (a property written with an
`undefined` value). -/
inductive JsVal where
  | str (s : String)
  | num (n : Int)
  | nullV
  | undef
deriving DecidableEq, Repr

/-- A JavaScript object literal: an insertion-ordered list of fields. -/
abbrev JsObj := List (String × JsVal)

/-- JS truthiness of an optional string: `undefined`/`null` (`none`) and the
empty string are falsy, every other string is truthy. -/
def truthyOpt : Option String → Bool
  | none => false
  | some s => !(s == "")

/-- The JS expression `o || d` for an optional string `o` and string default
`d`: the string itself when truthy, otherwise the default. -/
def jsOrS (o : Option String) (d : String) : String :=
  if truthyOpt o then o.getD "" else d

/-- The JS expression `o || null` for an optional string: `null` (`none`)
unless the string is truthy. -/
def jsOrNull (o : Option String) : Option String :=
  if truthyOpt o then o else none

/-- Longest leading run of decimal digits of a character list, as used by
`parseInt` with radix 10. -/
def leadDigits : List Char → List Char
  | [] => []
  | c :: cs => if c.isDigit then c :: leadDigits cs else []

/-- Decimal value of a nonempty digit list; `none` on the empty list. -/
def digitsVal : List Char → Option Nat
  | [] => none
  | cs => some (cs.foldl (fun a c => a * 10 + (c.toNat - 48)) 0)

/-- ASCII whitespace, as skipped by `parseInt`. -/
def isWs (c : Char) : Bool :=
  c == ' ' || c == '\t' || c == '\n' || c == '\r'

/-- Model of JavaScript `parseInt(s, 10)`: skip leading whitespace, read
an optional sign and then the longest run of decimal digits; `none`
stands for `NaN` (no digits at all). -/
def parseIntJS (s : String) : Option Int :=
  match s.toList.dropWhile isWs with
  | '-' :: rest => (digitsVal (leadDigits rest)).map (fun n => -(n : Int))
  | '+' :: rest => (digitsVal (leadDigits rest)).map (fun n => (n : Int))
  | cs => (digitsVal (leadDigits cs)).map (fun n => (n : Int))

/-- Start index of `arr.slice(k)` in JavaScript for an array of length
`len`: a negative `k` counts from the end (clamped at 0), a nonnegative
`k` is clamped at `len`. -/
def jsSliceStart (len : Nat) (k : Int) : Nat :=
  if k < 0 then len - min len k.natAbs else min k.toNat len

/-- JavaScript `arr.slice(k)` (one-argument form): the elements from the
computed start index to the end. -/
def jsSlice {α : Type} (l : List α) (k : Int) : List α :=
  l.drop (jsSliceStart l.length k)

/-- `String(n).padStart(w, c)`: left-pad to width `w` with `c`; a string
already at least `w` long is returned unchanged. -/
def padStart (s : String) (w : Nat) (c : Char) : String :=
  if w ≤ s.length then s else String.mk (List.replicate (w - s.length) c) ++ s

/-- One structured log line produced by the services' `log` helper:
level, message, and the extra fields object. -/
structure LogEntry where
  level : String
  msg : String
  extra : JsObj
deriving DecidableEq, Repr

/-! ## Event Consumer (analytics-service) -/

/-- The JSON payload of a broker message once parsed, restricted to the
fields the consumer reads (`payload.source`, `payload.action`,
`payload.itemId`, `payload.ts`); `none` is an absent/null field. -/
structure Payload where
  source : Option String
  action : Option String
  itemId : Option String
  ts : Option String
deriving DecidableEq, Repr

/-- Kafka provenance attached to a stored event
(`index.js` lines 72-77). -/
structure KafkaMeta where
  topic : String
  partition : Nat
  offset : String
  key : Option String
deriving DecidableEq, Repr

/-- A stored event of the analytics-service Event Log
(`index.js` lines 64-78). -/
structure Event where
  id : String
  source : String
  action : String
  itemId : Option String
  ts : String
  receivedAt : String
  kafka : KafkaMeta
deriving DecidableEq, Repr

/-- Module-level mutable state of analytics-service
(`index.js` lines 29-31): the Event Log, the connected flag and the
messages-consumed counter. -/
structure ConsumerState where
  events : List Event
  consumerConnected : Bool
  messagesConsumed : Nat
deriving DecidableEq, Repr

/-- Initial state of the module (`index.js` lines 29-31). -/
def initState : ConsumerState :=
  { events := [], consumerConnected := false, messagesConsumed := 0 }

/-- One message as delivered to the `eachMessage` callback, together with
the wall-clock reading (`new Date().toISOString()`) at processing time. -/
structure DeliveredMsg where
  topic : String
  partition : Nat
  offset : String
  key : Option String
  value : String
  now : String
deriving DecidableEq, Repr

/-- Event id assigned at ingestion:
`` `E${String(events.length + 1).padStart(5, '0')}` `` (`index.js` line 65). -/
def eventId (n : Nat) : String :=
  "E" ++ padStart (toString n) 5 '0'

/-- The `eachMessage` handler of the consumer (`index.js` lines 59-93),
parameterised by the JSON parser (`JSON.parse`, which either yields a
payload or throws with an error message). On success it appends the built
event and increments the counter; the `catch` branch logs the error and
leaves the state alone. Returns the new state and the log lines written. -/
def eachMessage (parse : String → Except String Payload)
    (st : ConsumerState) (m : DeliveredMsg) : ConsumerState × List LogEntry :=
  match parse m.value with
  | .ok payload =>
    let event : Event :=
      { id := eventId (st.events.length + 1)
        source := jsOrS payload.source "unknown"
        action := jsOrS payload.action "unknown"
        itemId := jsOrNull payload.itemId
        ts := jsOrS payload.ts m.now
        receivedAt := m.now
        kafka := { topic := m.topic, partition := m.partition,
                   offset := m.offset, key := m.key } }
    ({ st with events := st.events ++ [event],
               messagesConsumed := st.messagesConsumed + 1 },
     [{ level := "info", msg := "Event consumed from Kafka",
        extra := [("eventId", .str event.id), ("source", .str event.source),
                  ("action", .str event.action), ("offset", .str m.offset),
                  ("partition", .num m.partition)] }])
  | .error e =>
    (st, [{ level := "error", msg := "Failed to process Kafka message",
            extra := [("error", .str e)] }])

/-- Sequential delivery of a list of messages to `eachMessage`
(the broker client invokes the handler one message at a time, in order). -/
def runMessages (parse : String → Except String Payload)
    (st : ConsumerState) (msgs : List DeliveredMsg) : ConsumerState :=
  msgs.foldl (fun s m => (eachMessage parse s m).1) st

/-- Query parameters of `GET /events` as read from `req.query`
(`index.js` line 136); an absent parameter is `none`, a parameter given
with an empty value is `some ""`. -/
structure QueryParams where
  source : Option String
  action : Option String
  limit : Option String
deriving DecidableEq, Repr

/-- Configuration constants of analytics-service that appear in responses
(`SERVICE`, `KAFKA_TOPIC`, `KAFKA_GROUP_ID`, and the broker list). -/
structure ConsCfg where
  service : String
  topic : String
  groupId : String
  brokers : List String
deriving DecidableEq, Repr

/-- The filtering part of `GET /events` (`index.js` lines 137-139):
`if (source) result = result.filter(...)` and likewise for `action`; a
falsy (absent or empty) parameter applies no filter. -/
def filterEvents (src act : Option String) (l : List Event) : List Event :=
  let r := if truthyOpt src then l.filter (fun e => e.source == src.getD "") else l
  if truthyOpt act then r.filter (fun e => e.action == act.getD "") else r

/-- Argument of the `result.slice(-max)` call (`index.js` line 141): the
negation of `parseInt(limit || '50', 10)`, where a NaN result of
`parseInt` behaves as 0 inside `slice`. -/
def sliceArg : Option Int → Int
  | none => 0
  | some n => -n

/-- Response body of `GET /events` (`index.js` lines 142-148). -/
structure EventsResp where
  service : String
  hostname : String
  total : Nat
  returned : Nat
  events : List Event
deriving DecidableEq, Repr

/-- The `GET /events` handler (`index.js` lines 135-149). It copies the
log (`[...events]`), filters, slices to the last `max` entries and
responds; the module state it leaves behind is unchanged. -/
def getEventsH (cfg : ConsCfg) (host : String) (st : ConsumerState)
    (q : QueryParams) : ConsumerState × EventsResp :=
  let result := filterEvents q.source q.action st.events
  let maxv := parseIntJS (jsOrS q.limit "50")
  let result := jsSlice result (sliceArg maxv)
  (st, { service := cfg.service, hostname := host,
         total := st.events.length, returned := result.length,
         events := result })

/-- Value held by an own property of the `{}` counter objects of
`GET /stats`: a genuine numeric count, or one of the garbage strings
produced when a key collides with the counter object's prototype chain
(see `bumpCount`). -/
inductive CountVal where
  | num (n : Nat)
  | strv (s : String)
deriving DecidableEq, Repr

/-- The function-valued properties a fresh `{}` object inherits from
`Object.prototype` in Node: reading one of these keys on the counter
object yields a (truthy) function, not `undefined`. -/
def protoFunKeys : List String :=
  ["constructor", "hasOwnProperty", "isPrototypeOf", "propertyIsEnumerable",
   "toLocaleString", "toString", "valueOf", "__defineGetter__",
   "__defineSetter__", "__lookupGetter__", "__lookupSetter__"]

/-- All `Object.prototype` keys visible on a fresh `{}` object: the
`__proto__` accessor plus the inherited functions. -/
def protoKeys : List String :=
  "__proto__" :: protoFunKeys

/-- String conversion of the function inherited at key `k`, as Node
prints it: `constructor` holds the function named `Object`, the others
are native functions named after their key. -/
def protoFunStr (k : String) : String :=
  if k == "constructor" then "function Object() \x7b [native code] \x7d"
  else "function " ++ k ++ "() \x7b [native code] \x7d"

/-- Own-property read on a counter object. -/
def ownGet (m : List (String × CountVal)) (k : String) : Option CountVal :=
  match m with
  | [] => none
  | (k2, v) :: rest => if k2 == k then some v else ownGet rest k

/-- Own-property write on a counter object: an existing key is updated in
place, a new key is appended. -/
def setOwn (m : List (String × CountVal)) (k : String) (v : CountVal) :
    List (String × CountVal) :=
  match m with
  | [] => [(k, v)]
  | (k2, v2) :: rest =>
    if k2 == k then (k2, v) :: rest else (k2, v2) :: setOwn rest k v

/-- One step of the counting loop of `GET /stats`
(`bySource[e.source] = (bySource[e.source] || 0) + 1`, `index.js` lines
156-157), with the prototype chain of the `{}` object modelled. A key
holding a number `n` becomes `n + 1` (`0 || 0` is `0`, so this also holds
at 0); a key holding a nonempty (hence truthy) garbage string gets `"1"`
concatenated by JS string addition; a fresh key that no prototype member
shadows starts at 1; a fresh key inherited as a function from
`Object.prototype` reads back that truthy function, so `f + 1` is
`String(f) + "1"` — a garbage string, stored as an own property; and an
assignment to `__proto__` (whose read yields the prototype object) is
silently swallowed by the inherited `__proto__` setter, because the
assigned value is a string, not an object — the counter never gains an
own `__proto__` property. -/
def bumpCount (m : List (String × CountVal)) (k : String) :
    List (String × CountVal) :=
  if k == "__proto__" then m
  else
    match ownGet m k with
    | some (CountVal.num n) => setOwn m k (CountVal.num (n + 1))
    | some (CountVal.strv s) =>
      if s == "" then setOwn m k (CountVal.num 1)
      else setOwn m k (CountVal.strv (s ++ "1"))
    | none =>
      if k ∈ protoFunKeys then
        setOwn m k (CountVal.strv (protoFunStr k ++ "1"))
      else setOwn m k (CountVal.num 1)

/-- The single pass of `GET /stats` over the log (`index.js` lines
153-158), counting occurrences of `f e` for each event. (JS property
enumeration order places integer-like keys first; the association list
keeps pure insertion order instead — no claim concerns ordering.) -/
def countBy (f : Event → String) (l : List Event) : List (String × CountVal) :=
  l.foldl (fun m e => bumpCount m (f e)) []

/-- The numeric count the map reports for key `k`: the own value when it
is a number, 0 when the key is absent or holds a corrupted string. -/
def countOf (m : List (String × CountVal)) (k : String) : Nat :=
  match ownGet m k with
  | some (CountVal.num n) => n
  | _ => 0

/-- A counter object all of whose own values are genuine numbers. -/
def goodMap (m : List (String × CountVal)) : Prop :=
  ∀ kv ∈ m, ∃ n, kv.2 = CountVal.num n

/-- Sum of the numeric counts of a counter object (corrupted entries
contribute 0). -/
def sumCounts : List (String × CountVal) → Nat
  | [] => 0
  | (_, CountVal.num n) :: rest => n + sumCounts rest
  | (_, CountVal.strv _) :: rest => sumCounts rest

/-- Response body of `GET /stats` (`index.js` lines 159-170). -/
structure StatsResp where
  service : String
  totalEvents : Nat
  messagesConsumed : Nat
  connected : Bool
  bySource : List (String × CountVal)
  byAction : List (String × CountVal)
deriving DecidableEq, Repr

/-- The `GET /stats` handler (`index.js` lines 152-171): recompute the two
count maps over the whole log and respond; the module state is unchanged. -/
def getStatsH (cfg : ConsCfg) (st : ConsumerState) :
    ConsumerState × StatsResp :=
  (st, { service := cfg.service,
         totalEvents := st.events.length,
         messagesConsumed := st.messagesConsumed,
         connected := st.consumerConnected,
         bySource := countBy (fun e => e.source) st.events,
         byAction := countBy (fun e => e.action) st.events })

/-- Response body of `GET /kafka-status` (`index.js` lines 175-185). -/
structure KafkaStatusResp where
  service : String
  connected : Bool
  brokers : List String
  topic : String
  groupId : String
  messagesConsumed : Nat
  eventsStored : Nat
deriving DecidableEq, Repr

/-- The `GET /kafka-status` handler (`index.js` lines 174-186): report the
connection flag and both counters; the module state is unchanged. -/
def kafkaStatusH (cfg : ConsCfg) (st : ConsumerState) :
    ConsumerState × KafkaStatusResp :=
  (st, { service := cfg.service,
         connected := st.consumerConnected,
         brokers := cfg.brokers,
         topic := cfg.topic,
         groupId := cfg.groupId,
         messagesConsumed := st.messagesConsumed,
         eventsStored := st.events.length })

/-- An operation of the consumer service touching (or reading) the shared
state: a broker delivery or one of the three read endpoints. -/
inductive ConsumerOp where
  | deliver (m : DeliveredMsg)
  | queryEvents (host : String) (q : QueryParams)
  | stats
  | kafkaStatus
deriving DecidableEq, Repr

/-- The state left behind by one consumer operation. -/
def applyOp (parse : String → Except String Payload) (cfg : ConsCfg)
    (st : ConsumerState) : ConsumerOp → ConsumerState
  | .deliver m => (eachMessage parse st m).1
  | .queryEvents host q => (getEventsH cfg host st q).1
  | .stats => (getStatsH cfg st).1
  | .kafkaStatus => (kafkaStatusH cfg st).1

/-- Running a sequence of consumer operations from a state. -/
def runOps (parse : String → Except String Payload) (cfg : ConsCfg)
    (st : ConsumerState) (ops : List ConsumerOp) : ConsumerState :=
  ops.foldl (applyOp parse cfg) st

/-! Spec-side model of the Query operation, used to state refinement for
claim C3. These two definitions follow the words of the specification
("returns the most recent `limit` (default 50) entries from the Event Log
after applying exact-match filters for `source` and `action` if given,
preserving original append order"), not the code. -/

/-- Spec reading: exact-match filters for `source` and `action`, applied
only when the filter is given. -/
def specFilter (src act : Option String) (l : List Event) : List Event :=
  let r := match src with
    | some s => l.filter (fun e => e.source == s)
    | none => l
  match act with
  | some s => r.filter (fun e => e.action == s)
  | none => r

/-- Spec reading: the most recent `n` entries of a list, in order. -/
def lastN {α : Type} (n : Nat) (l : List α) : List α :=
  l.drop (l.length - n)

/-- Spec reading of Query: filter, then keep the most recent `n`. -/
def specQueryEvents (src act : Option String) (n : Nat) (l : List Event) :
    List Event :=
  lastN n (specFilter src act l)

/-! ## Event Publisher (content-service) -/

/-- Setting a field of a JS object: an existing key is updated in place
(its position kept), a new key is appended. This is the effect of each
property of an object literal, including the ones contributed by a spread
`...extra`, which therefore override earlier keys. -/
def objSet (o : JsObj) (k : String) (v : JsVal) : JsObj :=
  match o with
  | [] => [(k, v)]
  | (k', v') :: rest =>
    if k' == k then (k', v) :: rest else (k', v') :: objSet rest k v

/-- Reading a field of a JS object (first, hence only, occurrence). -/
def objGet (o : JsObj) (k : String) : Option JsVal :=
  match o with
  | [] => none
  | (k', v) :: rest => if k' == k then some v else objGet rest k

/-- JS value stored for `itemId || null`: the string when truthy,
otherwise `null`. -/
def itemIdVal (itemId : Option String) : JsVal :=
  if truthyOpt itemId then .str (itemId.getD "") else .nullV

/-- Configuration constants of content-service used by `trackEvent`:
`SERVICE`, `ENV` and `KAFKA_TOPIC`. -/
structure PubEnv where
  service : String
  env : String
  topic : String
deriving DecidableEq, Repr

/-- The event object built by `trackEvent` (`index.js` lines 59-67): the
six fixed fields in literal order, then the spread `...extra` whose
fields are merged in and override any fixed field of the same name. -/
def buildEvent (pe : PubEnv) (now host : String) (action : String)
    (itemId : Option String) (extra : JsObj) : JsObj :=
  let base : JsObj :=
    [("source", .str pe.service), ("action", .str action),
     ("itemId", itemIdVal itemId), ("ts", .str now),
     ("env", .str pe.env), ("hostname", .str host)]
  extra.foldl (fun o kv => objSet o kv.1 kv.2) base

/-- One message of a `producer.send` call (`index.js` lines 72-76): the
routing key `itemId || action`, the event object (standing for its JSON
serialization) and the two headers. -/
structure ProducerMsg where
  key : String
  value : JsObj
  headers : List (String × String)
deriving DecidableEq, Repr

/-- A `producer.send` request (`index.js` lines 69-78). -/
structure SendReq where
  topic : String
  messages : List ProducerMsg
deriving DecidableEq, Repr

/-- The request `trackEvent` submits when the producer is ready. -/
def trackRequest (pe : PubEnv) (now host : String) (action : String)
    (itemId : Option String) (extra : JsObj) : SendReq :=
  { topic := pe.topic
    messages := [{ key := jsOrS itemId action
                   value := buildEvent pe now host action itemId extra
                   headers := [("source", pe.service), ("env", pe.env)] }] }

/-- Outcome of one `trackEvent` call. -/
inductive TrackResult where
  | droppedNotReady
  | published
  | sendFailed (e : String)
deriving DecidableEq, Repr

/-- Everything observable about one `trackEvent` call: its outcome, the
send requests actually submitted to the broker client, and the log lines
written. The return type has no error alternative: the body catches the
broker error, so the call never raises to its caller. -/
structure TrackOut where
  result : TrackResult
  sent : List SendReq
  logs : List LogEntry
deriving DecidableEq, Repr

/-- The `trackEvent` function of content-service (`index.js` lines
54-83), parameterised by the behaviour of `producer.send` (which either
resolves or rejects with an error message). When `kafkaReady` is false it
logs a warning naming the action and itemId and returns without touching
the broker; otherwise it builds the event, submits it, and logs the
success or the caught failure. -/
def trackEvent (pe : PubEnv) (sendF : SendReq → Except String Unit)
    (kafkaReady : Bool) (now host : String) (action : String)
    (itemId : Option String) (extra : JsObj) : TrackOut :=
  if !kafkaReady then
    { result := .droppedNotReady, sent := [],
      logs := [{ level := "warn",
                 msg := "Kafka not ready — dropping analytics event",
                 extra := [("action", .str action),
                           ("itemId", itemIdVal itemId)] }] }
  else
    let req := trackRequest pe now host action itemId extra
    match sendF req with
    | .ok _ =>
      { result := .published, sent := [req],
        logs := [{ level := "info",
                   msg := "Analytics event published to Kafka",
                   extra := [("topic", .str pe.topic),
                             ("action", .str action),
                             ("itemId", itemIdVal itemId)] }] }
    | .error e =>
      { result := .sendFailed e, sent := [req],
        logs := [{ level := "error",
                   msg := "Failed to publish event to Kafka",
                   extra := [("error", .str e), ("action", .str action),
                             ("itemId", itemIdVal itemId)] }] }

/-- A content item of the in-memory store (`index.js` lines 86-91). -/
structure Item where
  id : String
  title : String
  type : String
  status : String
  createdAt : String
deriving DecidableEq, Repr

/-- Everything observable about one `POST /items` request (`index.js`
lines 127-138): the store left behind, the HTTP status and body item, and
the outcome of the fire-and-forget `trackEvent` call (`none` when the
request was rejected before reaching it). -/
structure PostItemsOut where
  items : List Item
  status : Nat
  body : Option Item
  track : Option TrackOut
deriving DecidableEq, Repr

/-- The `POST /items` handler (`index.js` lines 127-138): reject a falsy
`title` or `type` with 400, otherwise create the item, push it, fire
`trackEvent('create', item.id, { title, type })` without awaiting it, and
respond 201 with the item regardless of the publish outcome. -/
def postItems (pe : PubEnv) (sendF : SendReq → Except String Unit)
    (kafkaReady : Bool) (now host today : String) (items : List Item)
    (title type : Option String) : PostItemsOut :=
  if !truthyOpt title || !truthyOpt type then
    { items := items, status := 400, body := none, track := none }
  else
    let item : Item :=
      { id := "C" ++ padStart (toString (items.length + 1)) 3 '0'
        title := title.getD "", type := type.getD ""
        status := "draft", createdAt := today }
    let out := trackEvent pe sendF kafkaReady now host "create"
      (some item.id) [("title", .str (title.getD "")),
                      ("type", .str (type.getD ""))]
    { items := items ++ [item], status := 201, body := some item,
      track := some out }

/-! ## Connection State machines

The spec's Connection State (`disconnected`, `connecting`, `connected`,
`reconnecting`) is carried by the code as control flow plus a boolean
flag. The transition relations below are read off the source:

Consumer (`startConsumer`, analytics `index.js` lines 46-100, started at
line 201): `disconnected → connecting` when `startConsumer` begins its
connect+subscribe attempt; `connecting → connected` when line 51 sets
`consumerConnected = true`; `connecting → disconnected` when the attempt
throws and the catch (lines 95-98) schedules a retry timer;
`connected → reconnecting` when `consumer.run` rejects after a successful
connect and the same catch clears the flag; `reconnecting → connecting`
when the 5-second timer re-enters `startConsumer`.

Publisher (`connectKafka`, content `index.js` lines 41-51): the same
first three transitions; nothing after line 44 ever clears `kafkaReady`,
so `connected` has no outgoing transition. -/

/-- The four connection states named by the specification. -/
inductive ConnState where
  | disconnected
  | connecting
  | connected
  | reconnecting
deriving DecidableEq, Repr

/-- Transition relation of the consumer's connection lifecycle. -/
def consumerStepB : ConnState → ConnState → Bool
  | .disconnected, .connecting => true
  | .connecting, .connected => true
  | .connecting, .disconnected => true
  | .connected, .reconnecting => true
  | .reconnecting, .connecting => true
  | _, _ => false

/-- Transition relation of the publisher's connection lifecycle. -/
def producerStepB : ConnState → ConnState → Bool
  | .disconnected, .connecting => true
  | .connecting, .connected => true
  | .connecting, .disconnected => true
  | _, _ => false

/-! ## Concrete fixtures used by witnesses and counterexamples -/

/-- A payload as published by content-service for a create of item C005. -/
def payload0 : Payload :=
  { source := some "content-service", action := some "create",
    itemId := some "C005", ts := some "T1" }

/-- A concrete stand-in for `JSON.parse`: the payload `"{}"` parses to
`payload0`, everything else throws. -/
def parseW : String → Except String Payload :=
  fun s => if s == "ok-payload" then .ok payload0
           else .error "Unexpected token"

/-- A well-formed delivered message. -/
def goodMsg1 : DeliveredMsg :=
  { topic := "content-events", partition := 0, offset := "0",
    key := some "C005", value := "ok-payload", now := "T2" }

/-- A malformed delivered message (its value does not parse). -/
def badMsg : DeliveredMsg :=
  { topic := "content-events", partition := 0, offset := "1",
    key := none, value := "oops", now := "T3" }

/-- A second well-formed delivered message. -/
def goodMsg2 : DeliveredMsg :=
  { topic := "content-events", partition := 0, offset := "2",
    key := some "C005", value := "ok-payload", now := "T4" }

/-- A concrete stored event. -/
def ev1 : Event :=
  { id := "E00001", source := "content-service", action := "create",
    itemId := some "C005", ts := "T1", receivedAt := "T2",
    kafka := { topic := "content-events", partition := 0, offset := "0",
               key := some "C005" } }

/-- A consumer state holding one event. -/
def st1 : ConsumerState :=
  { events := [ev1], consumerConnected := true, messagesConsumed := 1 }

/-- A consumer state holding 51 identical events (more than the default
query limit of 50). -/
def st51 : ConsumerState :=
  { events := List.replicate 51 ev1, consumerConnected := true,
    messagesConsumed := 51 }

/-- An event whose source collides with an inherited `Object.prototype`
function key of the stats counter object. -/
def evProto1 : Event :=
  { id := "E00001", source := "toString", action := "create",
    itemId := none, ts := "T1", receivedAt := "T1",
    kafka := { topic := "content-events", partition := 0, offset := "0",
               key := none } }

/-- An event whose source is the `__proto__` accessor key. -/
def evProto2 : Event :=
  { id := "E00002", source := "__proto__", action := "create",
    itemId := none, ts := "T2", receivedAt := "T2",
    kafka := { topic := "content-events", partition := 0, offset := "1",
               key := none } }

/-- A consumer state whose two events carry prototype-colliding sources. -/
def stProto : ConsumerState :=
  { events := [evProto1, evProto2], consumerConnected := true,
    messagesConsumed := 2 }

/-- The default analytics-service configuration. -/
def cfgA : ConsCfg :=
  { service := "analytics-service", topic := "content-events",
    groupId := "analytics-consumers", brokers := ["kafka:9092"] }

/-- The default content-service configuration. -/
def peC : PubEnv :=
  { service := "content-service", env := "local",
    topic := "content-events" }

/-- A broker client whose sends always resolve. -/
def sendOk : SendReq → Except String Unit := fun _ => .ok ()

/-- A broker client whose sends always reject. -/
def sendFail : SendReq → Except String Unit := fun _ => .error "broker down"

/-- Every position of an event list carries the sequential ingestion id
for that position. -/
def goodIds (l : List Event) : Prop :=
  ∀ i (h : i < l.length), (l.get ⟨i, h⟩).id = eventId (i + 1)

/-! ## Helper lemmas -/

theorem runMessages_cons (parse : String → Except String Payload)
    (st : ConsumerState) (m : DeliveredMsg) (rest : List DeliveredMsg) :
    runMessages parse st (m :: rest) =
      runMessages parse (eachMessage parse st m).1 rest := rfl

theorem eachMessage_error {parse : String → Except String Payload}
    {st : ConsumerState} {m : DeliveredMsg} {e : String}
    (h : parse m.value = .error e) :
    eachMessage parse st m =
      (st, [{ level := "error", msg := "Failed to process Kafka message",
              extra := [("error", .str e)] }]) := by
  simp [eachMessage, h]

/-- C1: a broker message whose payload fails to parse is skipped: the
handler logs the error, leaves the consumer state (Event Log and
messages-consumed counter) unchanged, and subsequent messages are
processed exactly as if the malformed one had never been delivered. -/
theorem c1_malformed_message_skipped
    (parse : String → Except String Payload) (st : ConsumerState)
    (m : DeliveredMsg) (e : String) (h : parse m.value = .error e) :
    (eachMessage parse st m).1 = st ∧
    (eachMessage parse st m).2 =
      [{ level := "error", msg := "Failed to process Kafka message",
         extra := [("error", .str e)] }] ∧
    ∀ pre post, runMessages parse st (pre ++ m :: post) =
      runMessages parse st (pre ++ post) := by
  refine ⟨by rw [eachMessage_error h], by rw [eachMessage_error h], ?_⟩
  intro pre post
  induction pre generalizing st with
  | nil =>
    show runMessages parse st (m :: post) = runMessages parse st post
    rw [runMessages_cons, eachMessage_error h]
  | cons a t ih =>
    show runMessages parse st (a :: (t ++ m :: post)) =
      runMessages parse st (a :: (t ++ post))
    rw [runMessages_cons, runMessages_cons]
    exact ih (eachMessage parse st a).1

/-- Witness for C1: with one bad payload between two good ones, the bad
message leaves the state untouched and the run equals the run on the two
good messages alone — two events land and the counter reads 2, not 3. -/
theorem c1_witness :
    (eachMessage parseW initState badMsg).1 = initState ∧
    runMessages parseW initState [goodMsg1, badMsg, goodMsg2] =
      runMessages parseW initState [goodMsg1, goodMsg2] ∧
    (runMessages parseW initState [goodMsg1, badMsg, goodMsg2]).messagesConsumed = 2 ∧
    (runMessages parseW initState [goodMsg1, badMsg, goodMsg2]).events.length = 2 := by
  have h := c1_malformed_message_skipped parseW initState badMsg
    "Unexpected token" rfl
  exact ⟨h.1, h.2.2 [goodMsg1] [goodMsg2], by decide, by decide⟩

theorem goodIds_append {l : List Event} {e : Event} (hl : goodIds l)
    (he : e.id = eventId (l.length + 1)) : goodIds (l ++ [e]) := by
  intro i h
  rcases Nat.lt_or_ge i l.length with hi | hi
  · have hg : (l ++ [e]).get ⟨i, h⟩ = l.get ⟨i, hi⟩ :=
      List.getElem_append_left hi
    rw [hg]
    exact hl i hi
  · have hlen : i = l.length := by
      have hlt : i < l.length + 1 := by simpa using h
      omega
    subst hlen
    have hg : (l ++ [e]).get ⟨l.length, h⟩ = e := by
      simp
    rw [hg, he]

theorem runMessages_goodIds (parse : String → Except String Payload)
    (msgs : List DeliveredMsg) :
    ∀ st : ConsumerState, goodIds st.events →
      goodIds (runMessages parse st msgs).events := by
  induction msgs with
  | nil => intro st h; exact h
  | cons m t ih =>
    intro st h
    rw [runMessages_cons]
    apply ih
    cases hp : parse m.value with
    | ok p =>
      simp only [eachMessage, hp]
      exact goodIds_append h rfl
    | error e =>
      rw [eachMessage_error hp]
      exact h

/-- C5: within one consumer process lifetime (starting from the empty
log), the event at position `i` of the Event Log carries id
`eventId (i + 1)`, i.e. the letter E followed by the 1-based sequence
number zero-padded to five digits — regardless of how many malformed
messages are interleaved in the delivered sequence. Ids are therefore
strictly increasing with no gaps. -/
theorem c5_event_ids_sequential (parse : String → Except String Payload)
    (msgs : List DeliveredMsg) (i : Nat)
    (h : i < (runMessages parse initState msgs).events.length) :
    ((runMessages parse initState msgs).events.get ⟨i, h⟩).id =
      eventId (i + 1) := by
  refine runMessages_goodIds parse msgs initState ?_ i h
  intro j hj
  simp [initState] at hj

/-- Witness for C5: after a good, a bad and a good message, the second
stored event (index 1) has id `E00002`. -/
theorem c5_witness :
    ((runMessages parseW initState [goodMsg1, badMsg, goodMsg2]).events.get
      ⟨1, by decide⟩).id = eventId 2 ∧ eventId 2 = "E00002" :=
  ⟨c5_event_ids_sequential parseW [goodMsg1, badMsg, goodMsg2] 1 (by decide),
   by decide⟩

/-- C6: the Event Log is append-only and never reordered. The three read
endpoints leave the module state exactly as it was, a delivery either
leaves the log unchanged (malformed payload) or appends exactly one event
at the end, and hence after any operation the previous log is a prefix of
the new one. -/
theorem c6_event_log_append_only (parse : String → Except String Payload)
    (cfg : ConsCfg) (st : ConsumerState) :
    (∀ host q, (getEventsH cfg host st q).1 = st) ∧
    (getStatsH cfg st).1 = st ∧
    (kafkaStatusH cfg st).1 = st ∧
    (∀ m, (eachMessage parse st m).1.events = st.events ∨
      ∃ e, (eachMessage parse st m).1.events = st.events ++ [e]) ∧
    (∀ op, ∃ t, (applyOp parse cfg st op).events = st.events ++ t) := by
  refine ⟨fun host q => rfl, rfl, rfl, ?_, ?_⟩
  · intro m
    cases hp : parse m.value with
    | ok p =>
      right
      simp only [eachMessage, hp]
      exact ⟨_, rfl⟩
    | error e =>
      left
      rw [eachMessage_error hp]
  · intro op
    cases op with
    | deliver m =>
      cases hp : parse m.value with
      | ok p =>
        simp only [applyOp, eachMessage, hp]
        exact ⟨_, rfl⟩
      | error e =>
        simp only [applyOp, eachMessage_error hp]
        exact ⟨[], by simp⟩
    | queryEvents host q => exact ⟨[], by simp [applyOp, getEventsH]⟩
    | stats => exact ⟨[], by simp [applyOp, getStatsH]⟩
    | kafkaStatus => exact ⟨[], by simp [applyOp, kafkaStatusH]⟩

theorem counter_invariant (parse : String → Except String Payload)
    (cfg : ConsCfg) (ops : List ConsumerOp) :
    ∀ st : ConsumerState, st.messagesConsumed = st.events.length →
      (runOps parse cfg st ops).messagesConsumed =
        (runOps parse cfg st ops).events.length := by
  induction ops with
  | nil => intro st h; exact h
  | cons op t ih =>
    intro st h
    show (runOps parse cfg (applyOp parse cfg st op) t).messagesConsumed = _
    apply ih
    cases op with
    | deliver m =>
      cases hp : parse m.value with
      | ok p => simp [applyOp, eachMessage, hp, h]
      | error e => simp [applyOp, eachMessage_error hp, h]
    | queryEvents host q => exact h
    | stats => exact h
    | kafkaStatus => exact h

/-- C9: after every sequence of consumer operations from the initial
state, the messages-consumed counter equals the length of the Event Log,
so `messagesConsumed` and `eventsStored` reported by `GET /kafka-status`
are always equal. -/
theorem c9_counter_matches_log (parse : String → Except String Payload)
    (cfg : ConsCfg) (ops : List ConsumerOp) :
    (runOps parse cfg initState ops).messagesConsumed =
      (runOps parse cfg initState ops).events.length ∧
    (kafkaStatusH cfg (runOps parse cfg initState ops)).2.messagesConsumed =
      (kafkaStatusH cfg (runOps parse cfg initState ops)).2.eventsStored := by
  have h := counter_invariant parse cfg ops initState rfl
  exact ⟨h, h⟩

theorem ownGet_setOwn_self (m : List (String × CountVal)) (k : String)
    (v : CountVal) :
    ownGet (setOwn m k v) k = some v := by
  induction m with
  | nil => simp [setOwn, ownGet]
  | cons kv rest ih =>
    obtain ⟨k2, v2⟩ := kv
    by_cases hk : k2 = k
    · simp [setOwn, ownGet, hk]
    · simp [setOwn, ownGet, hk, ih]

theorem ownGet_setOwn_ne (m : List (String × CountVal)) (k k2 : String)
    (v : CountVal) (h : k ≠ k2) :
    ownGet (setOwn m k v) k2 = ownGet m k2 := by
  induction m with
  | nil => simp [setOwn, ownGet, h]
  | cons kv rest ih =>
    obtain ⟨k3, v3⟩ := kv
    by_cases hk : k3 = k
    · subst hk
      simp [setOwn, ownGet, h]
    · simp [setOwn, ownGet, hk, ih]

theorem mem_of_ownGet {m : List (String × CountVal)} {k : String}
    {v : CountVal} (h : ownGet m k = some v) : (k, v) ∈ m := by
  induction m with
  | nil => cases h
  | cons kv rest ih =>
    obtain ⟨k2, v2⟩ := kv
    by_cases hk : k2 = k
    · subst hk
      simp [ownGet] at h
      subst h
      exact List.mem_cons_self _ _
    · simp [ownGet, hk] at h
      exact List.mem_cons_of_mem _ (ih h)

theorem goodMap_setOwn (k : String) (n : Nat) :
    ∀ m, goodMap m → goodMap (setOwn m k (CountVal.num n)) := by
  intro m
  induction m with
  | nil =>
    intro _ kv hkv
    simp [setOwn] at hkv
    exact ⟨n, by rw [hkv]⟩
  | cons kv2 rest ih =>
    obtain ⟨k2, v2⟩ := kv2
    intro h
    have hhead : ∃ n2, v2 = CountVal.num n2 := h (k2, v2) (List.mem_cons_self _ _)
    have hrest : goodMap rest := fun kv hkv => h kv (List.mem_cons_of_mem _ hkv)
    intro kv hkv
    by_cases hk : k2 = k
    · simp [setOwn, hk] at hkv
      rcases hkv with hkv | hkv
      · exact ⟨n, by rw [hkv]⟩
      · exact hrest kv hkv
    · simp [setOwn, hk] at hkv
      rcases hkv with hkv | hkv
      · exact ⟨hhead.choose, by rw [hkv]; exact hhead.choose_spec⟩
      · exact ih hrest kv hkv

theorem countOf_setOwn_ne (m : List (String × CountVal)) (k k2 : String)
    (v : CountVal) (h : k ≠ k2) :
    countOf (setOwn m k v) k2 = countOf m k2 := by
  unfold countOf
  rw [ownGet_setOwn_ne m k k2 v h]

theorem sumCounts_setOwn_num (k : String) (n : Nat) :
    ∀ m, ownGet m k = some (CountVal.num n) →
      sumCounts (setOwn m k (CountVal.num (n + 1))) = sumCounts m + 1 := by
  intro m
  induction m with
  | nil => intro h; cases h
  | cons kv rest ih =>
    obtain ⟨k2, v2⟩ := kv
    intro h
    by_cases hk : k2 = k
    · simp [ownGet, hk] at h
      subst h
      simp [setOwn, hk, sumCounts]
      omega
    · simp [ownGet, hk] at h
      have h2 := ih h
      cases v2 with
      | num n2 => simp [setOwn, hk, sumCounts, h2]; omega
      | strv s2 => simp [setOwn, hk, sumCounts, h2]

theorem sumCounts_setOwn_new (k : String) :
    ∀ m, ownGet m k = none →
      sumCounts (setOwn m k (CountVal.num 1)) = sumCounts m + 1 := by
  intro m
  induction m with
  | nil => intro _; rfl
  | cons kv rest ih =>
    obtain ⟨k2, v2⟩ := kv
    intro h
    by_cases hk : k2 = k
    · simp [ownGet, hk] at h
    · simp [ownGet, hk] at h
      have h2 := ih h
      cases v2 with
      | num n2 => simp [setOwn, hk, sumCounts, h2]; omega
      | strv s2 => simp [setOwn, hk, sumCounts, h2]

theorem ne_proto_of_not_mem {k : String} (hk : k ∉ protoKeys) :
    (k == "__proto__") = false ∧ k ∉ protoFunKeys := by
  constructor
  · have hne : k ≠ "__proto__" := by
      intro he
      exact hk (by rw [he, protoKeys]; exact List.mem_cons_self _ _)
    simpa using hne
  · intro hmem
    exact hk (by rw [protoKeys]; exact List.mem_cons_of_mem _ hmem)

theorem countOf_bumpCount_self (m : List (String × CountVal)) (k : String)
    (hk : k ∉ protoKeys) (hm : goodMap m) :
    countOf (bumpCount m k) k = countOf m k + 1 := by
  obtain ⟨hkp, hkf⟩ := ne_proto_of_not_mem hk
  unfold bumpCount
  rw [hkp]
  simp only [Bool.false_eq_true, if_false]
  cases hg : ownGet m k with
  | none =>
    rw [if_neg hkf]
    simp [countOf, ownGet_setOwn_self, hg]
  | some v =>
    obtain ⟨n, hn⟩ := hm (k, v) (mem_of_ownGet hg)
    simp only at hn
    subst hn
    simp [countOf, ownGet_setOwn_self, hg]

theorem countOf_bumpCount_ne (m : List (String × CountVal)) (k k2 : String)
    (h : k2 ≠ k) :
    countOf (bumpCount m k) k2 = countOf m k2 := by
  have hne : k ≠ k2 := fun he => h he.symm
  unfold bumpCount
  split
  · rfl
  · split
    · exact countOf_setOwn_ne m k k2 _ hne
    · split
      · exact countOf_setOwn_ne m k k2 _ hne
      · exact countOf_setOwn_ne m k k2 _ hne
    · split
      · exact countOf_setOwn_ne m k k2 _ hne
      · exact countOf_setOwn_ne m k k2 _ hne

theorem goodMap_bumpCount (m : List (String × CountVal)) (k : String)
    (hk : k ∉ protoKeys) (hm : goodMap m) :
    goodMap (bumpCount m k) := by
  obtain ⟨hkp, hkf⟩ := ne_proto_of_not_mem hk
  unfold bumpCount
  rw [hkp]
  simp only [Bool.false_eq_true, if_false]
  cases hg : ownGet m k with
  | none =>
    rw [if_neg hkf]
    exact goodMap_setOwn k 1 m hm
  | some v =>
    obtain ⟨n, hn⟩ := hm (k, v) (mem_of_ownGet hg)
    simp only at hn
    subst hn
    exact goodMap_setOwn k (n + 1) m hm

theorem sumCounts_bumpCount (m : List (String × CountVal)) (k : String)
    (hk : k ∉ protoKeys) (hm : goodMap m) :
    sumCounts (bumpCount m k) = sumCounts m + 1 := by
  obtain ⟨hkp, hkf⟩ := ne_proto_of_not_mem hk
  unfold bumpCount
  rw [hkp]
  simp only [Bool.false_eq_true, if_false]
  cases hg : ownGet m k with
  | none =>
    rw [if_neg hkf]
    exact sumCounts_setOwn_new k m hg
  | some v =>
    obtain ⟨n, hn⟩ := hm (k, v) (mem_of_ownGet hg)
    simp only at hn
    subst hn
    exact sumCounts_setOwn_num k n m hg

theorem countBy_good_aux (f : Event → String) :
    ∀ (l : List Event) (m : List (String × CountVal)),
      (∀ e ∈ l, f e ∉ protoKeys) → goodMap m →
      goodMap (l.foldl (fun m2 e => bumpCount m2 (f e)) m) ∧
      (∀ k, countOf (l.foldl (fun m2 e => bumpCount m2 (f e)) m) k =
        countOf m k + (l.filter (fun e => f e == k)).length) ∧
      sumCounts (l.foldl (fun m2 e => bumpCount m2 (f e)) m) =
        sumCounts m + l.length := by
  intro l
  induction l with
  | nil =>
    intro m _ hm
    exact ⟨hm, fun k => by simp, by simp⟩
  | cons e t ih =>
    intro m hl hm
    have hfe : f e ∉ protoKeys := hl e (List.mem_cons_self _ _)
    have hl2 : ∀ e2 ∈ t, f e2 ∉ protoKeys :=
      fun e2 he2 => hl e2 (List.mem_cons_of_mem _ he2)
    have hm2 : goodMap (bumpCount m (f e)) := goodMap_bumpCount m (f e) hfe hm
    obtain ⟨ih1, ih2, ih3⟩ := ih (bumpCount m (f e)) hl2 hm2
    refine ⟨ih1, ?_, ?_⟩
    · intro k
      show countOf (t.foldl _ (bumpCount m (f e))) k = _
      rw [ih2 k]
      by_cases hek : f e = k
      · rw [hek, countOf_bumpCount_self m k (hek ▸ hfe) hm]
        simp [List.filter_cons, hek]
        omega
      · rw [countOf_bumpCount_ne m (f e) k (fun he => hek he.symm)]
        simp [List.filter_cons, hek]
    · show sumCounts (t.foldl _ (bumpCount m (f e))) = _
      rw [ih3, sumCounts_bumpCount m (f e) hfe hm]
      simp
      omega

/-- Counterexample for C4: the `GET /stats` counters are plain `\x7b\x7d`
objects, so source values colliding with the prototype chain break the
counts. With one event of source `toString` and one of source
`__proto__`, the per-source map holds a garbage string for `toString`
(count 0, not 1), holds nothing at all for `__proto__` (the inherited
setter swallows the assignment), and its counts sum to 0, not the log
length 2. -/
theorem c4_counterexample :
    (getStatsH cfgA stProto).2.bySource =
      [("toString", CountVal.strv "function toString() \x7b [native code] \x7d1")] ∧
    countOf (getStatsH cfgA stProto).2.bySource "toString" = 0 ∧
    (stProto.events.filter (fun e => e.source == "toString")).length = 1 ∧
    countOf (getStatsH cfgA stProto).2.bySource "__proto__" = 0 ∧
    (stProto.events.filter (fun e => e.source == "__proto__")).length = 1 ∧
    sumCounts (getStatsH cfgA stProto).2.bySource ≠ stProto.events.length := by
  decide

/-- C4 (amended): for every Event Log none of whose `source` or `action`
values is a key visible on `Object.prototype` (`__proto__`,
`constructor`, `hasOwnProperty`, `isPrototypeOf`, `propertyIsEnumerable`,
`toLocaleString`, `toString`, `valueOf`, `__defineGetter__`,
`__defineSetter__`, `__lookupGetter__`, `__lookupSetter__`), `GET /stats`
returns count maps all of whose entries are genuine numbers, the count of
every key equals the number of log entries with that source (resp.
action), the counts of each map sum to the total log length, and
`totalEvents` reports that length. (The original claim fails for
prototype-colliding sources — see the counterexample.) -/
theorem c4_aggregate_counts_amended (cfg : ConsCfg) (st : ConsumerState)
    (hsrc : ∀ e ∈ st.events, e.source ∉ protoKeys)
    (hact : ∀ e ∈ st.events, e.action ∉ protoKeys) :
    goodMap (getStatsH cfg st).2.bySource ∧
    goodMap (getStatsH cfg st).2.byAction ∧
    (∀ s, countOf (getStatsH cfg st).2.bySource s =
      (st.events.filter (fun e => e.source == s)).length) ∧
    (∀ a, countOf (getStatsH cfg st).2.byAction a =
      (st.events.filter (fun e => e.action == a)).length) ∧
    sumCounts (getStatsH cfg st).2.bySource = st.events.length ∧
    sumCounts (getStatsH cfg st).2.byAction = st.events.length ∧
    (getStatsH cfg st).2.totalEvents = st.events.length := by
  have hgme : goodMap [] := fun kv hkv => absurd hkv (List.not_mem_nil kv)
  have hs := countBy_good_aux (fun e => e.source) st.events [] hsrc hgme
  have ha := countBy_good_aux (fun e => e.action) st.events [] hact hgme
  refine ⟨hs.1, ha.1, ?_, ?_, ?_, ?_, rfl⟩
  · intro s
    have h := hs.2.1 s
    simpa [countOf, ownGet] using h
  · intro a
    have h := ha.2.1 a
    simpa [countOf, ownGet] using h
  · have h := hs.2.2
    simpa [sumCounts] using h
  · have h := ha.2.2
    simpa [sumCounts] using h

/-- Witness for C4 (amended): on the one-event log whose source and
action avoid prototype keys, the reported count for `content-service` is
1, the counts sum to the log length, and every map entry is numeric. -/
theorem c4_witness :
    countOf (getStatsH cfgA st1).2.bySource "content-service" =
      (st1.events.filter (fun e => e.source == "content-service")).length ∧
    sumCounts (getStatsH cfgA st1).2.bySource = st1.events.length ∧
    goodMap (getStatsH cfgA st1).2.bySource := by
  have h := c4_aggregate_counts_amended cfgA st1 (by decide) (by decide)
  exact ⟨h.2.2.1 "content-service", h.2.2.2.2.1, h.1⟩

theorem filterEvents_eq_specFilter (src act : Option String)
    (l : List Event) (hs : src ≠ some "") (ha : act ≠ some "") :
    filterEvents src act l = specFilter src act l := by
  cases src with
  | none =>
    cases act with
    | none => rfl
    | some a =>
      have hn : a ≠ "" := fun he => ha (by rw [he])
      simp [filterEvents, specFilter, truthyOpt, hn]
  | some s =>
    have hn : s ≠ "" := fun he => hs (by rw [he])
    cases act with
    | none => simp [filterEvents, specFilter, truthyOpt, hn]
    | some a =>
      have hn2 : a ≠ "" := fun he => ha (by rw [he])
      simp [filterEvents, specFilter, truthyOpt, hn, hn2]

theorem jsSlice_neg {α : Type} (l : List α) (n : Nat) (hn : 0 < n) :
    jsSlice l (-(n : Int)) = lastN n l := by
  unfold jsSlice jsSliceStart lastN
  rw [if_pos (by omega : -(n : Int) < 0)]
  congr 1
  rw [Int.natAbs_neg, Int.natAbs_ofNat]
  omega

theorem jsSlice_zero {α : Type} (l : List α) : jsSlice l 0 = l := by
  unfold jsSlice jsSliceStart
  norm_num

theorem parseIntJS_empty : parseIntJS "" = none := rfl

theorem specFilter_sublist (src act : Option String) (l : List Event) :
    List.Sublist (specFilter src act l) l := by
  unfold specFilter
  cases src with
  | none =>
    cases act with
    | none => exact List.Sublist.refl l
    | some a => exact List.filter_sublist l
  | some s =>
    cases act with
    | none => exact List.filter_sublist l
    | some a => exact (List.filter_sublist _).trans (List.filter_sublist l)

theorem specQueryEvents_sublist (src act : Option String) (n : Nat)
    (l : List Event) :
    List.Sublist (specQueryEvents src act n l) l := by
  unfold specQueryEvents lastN
  exact (List.drop_sublist _ _).trans (specFilter_sublist src act l)

/-- Counterexample for C3: with the limit parameter `"0"`, the code does
not return the most recent 0 entries (the empty list): `parseInt` yields
0, `slice(-0)` is `slice(0)`, and the whole one-element log is returned. -/
theorem c3_counterexample :
    (getEventsH cfgA "host1" st1
      { source := none, action := none, limit := some "0" }).2.events = [ev1] ∧
    specQueryEvents none none 0 st1.events = [] ∧
    (getEventsH cfgA "host1" st1
      { source := none, action := none, limit := some "0" }).2.events ≠
      specQueryEvents none none 0 st1.events := by
  refine ⟨by decide, by decide, by decide⟩

/-- C3 (amended): for every log and every query whose `source`/`action`
filters are absent or nonempty and whose limit parameter is absent
(default 50) or parses to a positive integer `n`, `GET /events` returns
the most recent `n` entries of the exact-match-filtered log in append
order, together with the total unfiltered log length and the returned
count. (The original claim is false for the limit string `"0"`, which
returns the entire filtered log, see the counterexample.) -/
theorem c3_query_most_recent_amended (cfg : ConsCfg) (host : String)
    (st : ConsumerState) (q : QueryParams) (n : Nat)
    (hs : q.source ≠ some "") (ha : q.action ≠ some "")
    (hl : (q.limit = none ∧ n = 50) ∨
      ∃ s, q.limit = some s ∧ parseIntJS s = some (n : Int) ∧ 0 < n) :
    (getEventsH cfg host st q).2.events =
      specQueryEvents q.source q.action n st.events ∧
    (getEventsH cfg host st q).2.total = st.events.length ∧
    (getEventsH cfg host st q).2.returned =
      (specQueryEvents q.source q.action n st.events).length ∧
    List.Sublist (specQueryEvents q.source q.action n st.events) st.events := by
  have hfilter := filterEvents_eq_specFilter q.source q.action st.events hs ha
  have hmain : (getEventsH cfg host st q).2.events =
      specQueryEvents q.source q.action n st.events := by
    show jsSlice (filterEvents q.source q.action st.events)
      (sliceArg (parseIntJS (jsOrS q.limit "50"))) = _
    rcases hl with ⟨hnone, h50⟩ | ⟨s, hsome, hparse, hpos⟩
    · subst h50
      rw [hnone]
      have h1 : jsOrS none "50" = "50" := rfl
      rw [h1]
      have h2 : parseIntJS "50" = some (50 : Int) := by decide
      rw [h2]
      show jsSlice _ (-(50 : Int)) = _
      rw [hfilter]
      exact jsSlice_neg _ 50 (by omega)
    · have hne : s ≠ "" := by
        intro he
        rw [he, parseIntJS_empty] at hparse
        exact Option.noConfusion hparse
      rw [hsome]
      have h1 : jsOrS (some s) "50" = s := by simp [jsOrS, truthyOpt, hne]
      rw [h1, hparse]
      show jsSlice _ (-(n : Int)) = _
      rw [hfilter]
      exact jsSlice_neg _ n hpos
  exact ⟨hmain, rfl, congrArg List.length hmain,
    specQueryEvents_sublist q.source q.action n st.events⟩

/-- Witness for C3 (amended): on a one-event log with no filters and no
limit parameter, the query returns the most recent 50 entries of the log
with the matching totals. -/
theorem c3_witness :
    (getEventsH cfgA "host1" st1
      { source := none, action := none, limit := none }).2.events =
      specQueryEvents none none 50 st1.events ∧
    (getEventsH cfgA "host1" st1
      { source := none, action := none, limit := none }).2.total =
      st1.events.length ∧
    (getEventsH cfgA "host1" st1
      { source := none, action := none, limit := none }).2.returned =
      (specQueryEvents none none 50 st1.events).length ∧
    List.Sublist (specQueryEvents none none 50 st1.events) st1.events :=
  c3_query_most_recent_amended cfgA "host1" st1
    { source := none, action := none, limit := none } 50
    (by decide) (by decide) (Or.inl ⟨rfl, rfl⟩)

/-- Counterexample for C10: the empty string does not parse to a number
(`parseInt('')` is NaN), yet `limit=''` does not return the entire
filtered log: `'' || '50'` falls back to the default before `parseInt`
runs, so on a 51-event log only 50 entries come back. -/
theorem c10_counterexample :
    parseIntJS "" = none ∧
    (getEventsH cfgA "host1" st51
      { source := none, action := none, limit := some "" }).2.returned = 50 ∧
    (filterEvents none none st51.events).length = 51 := by
  refine ⟨rfl, by decide, by decide⟩

/-- C10 (amended): when the limit parameter is the string `"0"` or any
nonempty string that does not parse to a number, `GET /events` returns
the entire filtered log: the limit is applied as `slice(-parseInt(limit))`
and both `slice(-0)` and `slice(NaN)` return the whole array. (The
original claim is false for the empty string, which is falsy and falls
back to the default 50 before `parseInt` runs, see the counterexample.) -/
theorem c10_zero_or_nan_limit_amended (cfg : ConsCfg) (host : String)
    (st : ConsumerState) (src act : Option String) (ls : String)
    (h : ls = "0" ∨ (ls ≠ "" ∧ parseIntJS ls = none)) :
    (getEventsH cfg host st
      { source := src, action := act, limit := some ls }).2.events =
      filterEvents src act st.events := by
  show jsSlice (filterEvents src act st.events)
    (sliceArg (parseIntJS (jsOrS (some ls) "50"))) = _
  rcases h with h0 | ⟨hne, hnan⟩
  · subst h0
    have h1 : jsOrS (some "0") "50" = "0" := by decide
    rw [h1]
    have h2 : parseIntJS "0" = some (0 : Int) := by decide
    rw [h2]
    show jsSlice _ (-(0 : Int)) = _
    rw [neg_zero]
    exact jsSlice_zero _
  · have h1 : jsOrS (some ls) "50" = ls := by simp [jsOrS, truthyOpt, hne]
    rw [h1, hnan]
    exact jsSlice_zero _

/-- Witness for C10 (amended): with the unparsable limit string `"abc"`,
the query returns the whole filtered one-event log. -/
theorem c10_witness :
    (getEventsH cfgA "host1" st1
      { source := none, action := none, limit := some "abc" }).2.events =
      filterEvents none none st1.events :=
  c10_zero_or_nan_limit_amended cfgA "host1" st1 none none "abc"
    (Or.inr ⟨by decide, by decide⟩)

/-- C2: `trackEvent` never raises to its caller. When the ready flag is
false the call returns after writing exactly one warning naming the
action and itemId, submitting nothing to the broker; when the flag is
true and the broker send rejects, the error is caught and logged and the
outcome is `sendFailed`; and the `POST /items` handler's resulting store,
status code and body are identical whatever the send behaviour and ready
flag are. -/
theorem c2_publish_never_raises (pe : PubEnv)
    (sendF : SendReq → Except String Unit) (now host action : String)
    (itemId : Option String) (extra : JsObj) :
    (trackEvent pe sendF false now host action itemId extra =
      { result := .droppedNotReady, sent := [],
        logs := [{ level := "warn",
                   msg := "Kafka not ready — dropping analytics event",
                   extra := [("action", .str action),
                             ("itemId", itemIdVal itemId)] }] }) ∧
    (∀ e, sendF (trackRequest pe now host action itemId extra) = .error e →
      trackEvent pe sendF true now host action itemId extra =
        { result := .sendFailed e,
          sent := [trackRequest pe now host action itemId extra],
          logs := [{ level := "error",
                     msg := "Failed to publish event to Kafka",
                     extra := [("error", .str e), ("action", .str action),
                               ("itemId", itemIdVal itemId)] }] }) ∧
    (∀ (sendF2 : SendReq → Except String Unit) (ready ready2 : Bool)
      (items : List Item) (title ty : Option String) (today : String),
      (postItems pe sendF ready now host today items title ty).items =
        (postItems pe sendF2 ready2 now host today items title ty).items ∧
      (postItems pe sendF ready now host today items title ty).status =
        (postItems pe sendF2 ready2 now host today items title ty).status ∧
      (postItems pe sendF ready now host today items title ty).body =
        (postItems pe sendF2 ready2 now host today items title ty).body) := by
  refine ⟨rfl, ?_, ?_⟩
  · intro e he
    simp [trackEvent, he]
  · intro sendF2 ready ready2 items title ty today
    by_cases hc : (!truthyOpt title || !truthyOpt ty) = true
    · simp [postItems, hc]
    · simp [postItems, hc]

/-- Witness for C2: a not-ready call drops the event with the warning and
no send; a ready call against a rejecting broker ends in `sendFailed`;
and `POST /items` answers 201 identically under a failing broker and
under a disconnected one. -/
theorem c2_witness :
    (trackEvent peC sendFail false "T0" "H0" "view" (some "C001") [] =
      { result := .droppedNotReady, sent := [],
        logs := [{ level := "warn",
                   msg := "Kafka not ready — dropping analytics event",
                   extra := [("action", .str "view"),
                             ("itemId", itemIdVal (some "C001"))] }] }) ∧
    (trackEvent peC sendFail true "T0" "H0" "view" (some "C001") [] =
      { result := .sendFailed "broker down",
        sent := [trackRequest peC "T0" "H0" "view" (some "C001") []],
        logs := [{ level := "error",
                   msg := "Failed to publish event to Kafka",
                   extra := [("error", .str "broker down"),
                             ("action", .str "view"),
                             ("itemId", itemIdVal (some "C001"))] }] }) ∧
    (postItems peC sendFail true "T0" "H0" "D0" [] (some "A") (some "image")).status =
      (postItems peC sendOk false "T0" "H0" "D0" [] (some "A") (some "image")).status := by
  have h := c2_publish_never_raises peC sendFail "T0" "H0" "view" (some "C001") []
  exact ⟨h.1, h.2.1 "broker down" rfl,
    (h.2.2 sendOk true false [] (some "A") (some "image") "D0").2.1⟩

theorem objGet_objSet_self (o : JsObj) (k : String) (v : JsVal) :
    objGet (objSet o k v) k = some v := by
  induction o with
  | nil => simp [objSet, objGet]
  | cons kv rest ih =>
    obtain ⟨k', v'⟩ := kv
    by_cases hk : k' = k
    · simp [objSet, objGet, hk]
    · simp [objSet, objGet, hk, ih]

theorem objGet_objSet_ne (o : JsObj) (k k2 : String) (v : JsVal)
    (h : k ≠ k2) :
    objGet (objSet o k v) k2 = objGet o k2 := by
  induction o with
  | nil => simp [objSet, objGet, h]
  | cons kv rest ih =>
    obtain ⟨k', v'⟩ := kv
    by_cases hk : k' = k
    · subst hk
      simp [objSet, objGet, h]
    · simp [objSet, objGet, hk, ih]

theorem objGet_spread_not_mem (extra : JsObj) :
    ∀ (o : JsObj) (k : String), k ∉ extra.map Prod.fst →
      objGet (extra.foldl (fun o2 kv => objSet o2 kv.1 kv.2) o) k =
        objGet o k := by
  induction extra with
  | nil => intro o k _; rfl
  | cons kv rest ih =>
    intro o k h
    simp only [List.map_cons, List.mem_cons, not_or] at h
    show objGet (rest.foldl _ (objSet o kv.1 kv.2)) k = _
    rw [ih _ k h.2, objGet_objSet_ne _ _ _ _ (fun he => h.1 he.symm)]

theorem objGet_spread_mem (extra : JsObj) :
    ∀ (o : JsObj) (k : String) (v : JsVal), (extra.map Prod.fst).Nodup →
      (k, v) ∈ extra →
      objGet (extra.foldl (fun o2 kv => objSet o2 kv.1 kv.2) o) k =
        some v := by
  induction extra with
  | nil => intro o k v _ hm; cases hm
  | cons kv rest ih =>
    intro o k v hn hm
    show objGet (rest.foldl _ (objSet o kv.1 kv.2)) k = some v
    obtain ⟨k1, v1⟩ := kv
    simp only [List.map_cons] at hn
    have hn2 := List.nodup_cons.mp hn
    rcases List.mem_cons.mp hm with he | hm2
    · injection he with hk hv
      subst hk
      subst hv
      rw [objGet_spread_not_mem rest _ _ hn2.1, objGet_objSet_self]
    · exact ih _ k v hn2.2 hm2

/-- Counterexample for C7: in a connected publish whose extra fields
contain a `source` key, the spread `...extra` overrides the fixed field,
so the submitted record's `source` is not the publishing service's
identity. -/
theorem c7_counterexample :
    (trackEvent peC sendOk true "T0" "H0" "create" (some "C005")
      [("source", JsVal.str "evil")]).sent =
      [trackRequest peC "T0" "H0" "create" (some "C005")
        [("source", JsVal.str "evil")]] ∧
    objGet (buildEvent peC "T0" "H0" "create" (some "C005")
      [("source", JsVal.str "evil")]) "source" = some (JsVal.str "evil") ∧
    peC.service = "content-service" ∧
    JsVal.str "evil" ≠ JsVal.str "content-service" := by
  exact ⟨rfl, rfl, rfl, by decide⟩

/-- C7 (amended): for every connected publish whose extra fields use
pairwise-distinct keys and do not use the reserved keys `source`, `ts`
and `itemId`, the submitted record has `source` set to the service's
identity, `ts` set to the current time, `itemId` the given identifier or
null when it is absent (falsy), every extra field merged in, headers
carrying the source and the environment tag, and a message key equal to
the identifier or, when absent, the action name. (The original claim is
false when an extra field reuses a fixed key, since the spread overrides
it — see the counterexample.) -/
theorem c7_publish_record_amended (pe : PubEnv)
    (sendF : SendReq → Except String Unit) (now host action : String)
    (itemId : Option String) (extra : JsObj)
    (hnd : (extra.map Prod.fst).Nodup)
    (hsr : "source" ∉ extra.map Prod.fst)
    (hts : "ts" ∉ extra.map Prod.fst)
    (hii : "itemId" ∉ extra.map Prod.fst) :
    (trackEvent pe sendF true now host action itemId extra).sent =
      [trackRequest pe now host action itemId extra] ∧
    (trackRequest pe now host action itemId extra).topic = pe.topic ∧
    (trackRequest pe now host action itemId extra).messages =
      [{ key := jsOrS itemId action,
         value := buildEvent pe now host action itemId extra,
         headers := [("source", pe.service), ("env", pe.env)] }] ∧
    objGet (buildEvent pe now host action itemId extra) "source" =
      some (.str pe.service) ∧
    objGet (buildEvent pe now host action itemId extra) "ts" =
      some (.str now) ∧
    objGet (buildEvent pe now host action itemId extra) "itemId" =
      some (itemIdVal itemId) ∧
    (∀ k v, (k, v) ∈ extra →
      objGet (buildEvent pe now host action itemId extra) k = some v) ∧
    (truthyOpt itemId = true → jsOrS itemId action = itemId.getD "" ∧
      itemIdVal itemId = .str (itemId.getD "")) ∧
    (truthyOpt itemId = false → jsOrS itemId action = action ∧
      itemIdVal itemId = .nullV) := by
  refine ⟨?_, rfl, rfl, ?_, ?_, ?_, ?_, ?_, ?_⟩
  · cases hsf : sendF (trackRequest pe now host action itemId extra) with
    | ok u => simp [trackEvent, hsf]
    | error e => simp [trackEvent, hsf]
  · unfold buildEvent
    rw [objGet_spread_not_mem extra _ _ hsr]
    simp [objGet]
  · unfold buildEvent
    rw [objGet_spread_not_mem extra _ _ hts]
    simp [objGet]
  · unfold buildEvent
    rw [objGet_spread_not_mem extra _ _ hii]
    simp [objGet]
  · intro k v hm
    unfold buildEvent
    exact objGet_spread_mem extra _ k v hnd hm
  · intro h
    simp [jsOrS, itemIdVal, h]
  · intro h
    simp [jsOrS, itemIdVal, h]

/-- Witness for C7 (amended): the create event for item C005 with extra
fields title and type carries the service identity as `source`, the
merged `title` field, and is submitted as built. -/
theorem c7_witness :
    (trackEvent peC sendOk true "T0" "H0" "create" (some "C005")
      [("title", JsVal.str "Poster"), ("type", JsVal.str "image")]).sent =
      [trackRequest peC "T0" "H0" "create" (some "C005")
        [("title", JsVal.str "Poster"), ("type", JsVal.str "image")]] ∧
    objGet (buildEvent peC "T0" "H0" "create" (some "C005")
      [("title", JsVal.str "Poster"), ("type", JsVal.str "image")]) "source" =
      some (.str peC.service) ∧
    objGet (buildEvent peC "T0" "H0" "create" (some "C005")
      [("title", JsVal.str "Poster"), ("type", JsVal.str "image")]) "title" =
      some (JsVal.str "Poster") := by
  have h := c7_publish_record_amended peC sendOk "T0" "H0" "create"
    (some "C005") [("title", JsVal.str "Poster"), ("type", JsVal.str "image")]
    (by decide) (by decide) (by decide) (by decide)
  exact ⟨h.1, h.2.2.2.1,
    h.2.2.2.2.2.2.1 "title" (JsVal.str "Poster") (by simp)⟩

/-- C8: in both connection lifecycles, the only transition into
`connected` comes from `connecting` (so `connecting` is never skipped), a
direct `connected → connected` step does not exist, the only step out of
the consumer's `connected` is into `reconnecting`, whose only successor
is `connecting`; consequently every chain of consumer steps that starts
at `connected` and arrives back at `connected` passes through
`reconnecting` and `connecting`. -/
theorem c8_connection_state_machine :
    (∀ a b, consumerStepB a b = true → b = ConnState.connected →
      a = ConnState.connecting) ∧
    consumerStepB ConnState.connected ConnState.connected = false ∧
    (∀ b, consumerStepB ConnState.connected b = true →
      b = ConnState.reconnecting) ∧
    (∀ b, consumerStepB ConnState.reconnecting b = true →
      b = ConnState.connecting) ∧
    (∀ a b, producerStepB a b = true → b = ConnState.connected →
      a = ConnState.connecting) ∧
    producerStepB ConnState.connected ConnState.connected = false ∧
    (∀ l, List.Chain (fun x y => consumerStepB x y = true)
        ConnState.connected l →
      l.getLast? = some ConnState.connected →
      ConnState.reconnecting ∈ l ∧ ConnState.connecting ∈ l) := by
  refine ⟨?_, rfl, ?_, ?_, ?_, rfl, ?_⟩
  · intro a b h hb
    subst hb
    cases a <;> simp_all [consumerStepB]
  · intro b h
    cases b <;> simp_all [consumerStepB]
  · intro b h
    cases b <;> simp_all [consumerStepB]
  · intro a b h hb
    subst hb
    cases a <;> simp_all [producerStepB]
  · intro l hchain hlast
    cases l with
    | nil => cases hlast
    | cons b t =>
      cases hchain with
      | cons hstep hchain2 =>
        have hb : b = ConnState.reconnecting := by
          cases b <;> simp_all [consumerStepB]
        subst hb
        cases t with
        | nil => simp at hlast
        | cons c t2 =>
          cases hchain2 with
          | cons hstep2 _ =>
            have hc : c = ConnState.connecting := by
              cases c <;> simp_all [consumerStepB]
            subst hc
            exact ⟨List.mem_cons_self .., List.mem_cons_of_mem _ (List.mem_cons_self ..)⟩

/-- Witness for C8: the concrete re-entry chain
`connected → reconnecting → connecting → connected` contains both
intermediate states. -/
theorem c8_witness :
    ConnState.reconnecting ∈
      [ConnState.reconnecting, ConnState.connecting, ConnState.connected] ∧
    ConnState.connecting ∈
      [ConnState.reconnecting, ConnState.connecting, ConnState.connected] :=
  c8_connection_state_machine.2.2.2.2.2.2
    [ConnState.reconnecting, ConnState.connecting, ConnState.connected]
    (List.Chain.cons rfl (List.Chain.cons rfl (List.Chain.cons rfl List.Chain.nil)))
    rfl


